import Mathlib

/-!
WOLviaWebpage: a shallow embedding of `src/WOLviaWebpage.js` and the properties of the
Wake-on-LAN dispatch it implements. The copy `src/server.js` differs from it only in
comments, the names of two local variables and one message text.

The program is JavaScript, so the embedding carries the pieces of ECMAScript the code
relies on: conversion of strings to Number values (`ToNumber`), `ToInt32`, the 32-bit
bitwise operators, array indexing by a Number, `split`, `join`, `slice` and template
literals. JavaScript strings are Lean strings, processed as lists of characters.
-/

namespace WOLviaWebpage

/-! ## ECMAScript Number values -/

/-- Number values: NaN, the two infinities, and the finite binary64 values, kept exactly as
`± mant * 2 ^ exp`. Both zeros are `finite _ 0 _`. -/
inductive JSNumber where
  | nan
  | infinity (negative : Bool)
  | finite (negative : Bool) (mant : Nat) (exp : Int)
deriving DecidableEq

/-- Two to the power `k`, as the pair of factors that multiply the numerator and the
denominator of a fraction: `2 ^ k` goes to the numerator when `k ≥ 0`, `2 ^ (-k)` to the
denominator otherwise. -/
def pow2Parts (k : Int) : Nat × Nat :=
  if 0 ≤ k then (2 ^ k.toNat, 1) else (1, 2 ^ (-k).toNat)

/-- The position of the highest set bit of `n`, found in at most `fuel` halvings. -/
def floorLog2Aux : Nat → Nat → Nat
  | 0, _ => 0
  | fuel + 1, n => if n < 2 then 0 else floorLog2Aux fuel (n / 2) + 1

/-- The position of the highest set bit: `2 ^ floorLog2 n ≤ n < 2 ^ (floorLog2 n + 1)` for
`n > 0`. -/
def floorLog2 (n : Nat) : Nat := floorLog2Aux n n

/-- The integer `p` with `2 ^ p ≤ num / den < 2 ^ (p + 1)`, for `num, den > 0`. -/
def floorLog2Ratio (num den : Nat) : Int :=
  let p0 : Int := (floorLog2 num : Int) - (floorLog2 den : Int)
  let (up, down) := pow2Parts p0
  if den * up ≤ num * down then p0 else p0 - 1

/-- The Number value of a non-negative rational `num / den` (`den > 0`) with the given
sign: round to nearest binary64 value, ties to even, overflowing to infinity. -/
def roundToBinary64 (negative : Bool) (num den : Nat) : JSNumber :=
  if num = 0 then .finite negative 0 0
  else
    let p := floorLog2Ratio num den
    let s : Int := max (p - 52) (-1074)
    let (up, down) := pow2Parts s
    let n := num * down
    let d := den * up
    let q := n / d
    let r := n % d
    let m := if d < 2 * r ∨ (d = 2 * r ∧ q % 2 = 1) then q + 1 else q
    if 971 < s ∨ (s = 971 ∧ 2 ^ 53 ≤ m) then .infinity negative
    else .finite negative m s

/-- ECMAScript `x - 1` on Number values. -/
def jsMinusOne : JSNumber → JSNumber
  | .nan => .nan
  | .infinity negative => .infinity negative
  | .finite negative mant exp =>
    let (up, down) := pow2Parts exp
    -- the operand is `± (mant * up) / down`
    if negative then roundToBinary64 true (mant * up + down) down
    else if down ≤ mant * up then roundToBinary64 false (mant * up - down) down
    else roundToBinary64 true (down - mant * up) down

/-- ECMAScript `ToInt32`, the result given as its 32-bit two's complement pattern
(a natural number below `2 ^ 32`). -/
def toInt32 : JSNumber → Nat
  | .nan => 0
  | .infinity _ => 0
  | .finite negative mant exp =>
    let (up, down) := pow2Parts exp
    let t := (mant * up) / down
    if negative then (2 ^ 32 - t % 2 ^ 32) % 2 ^ 32 else t % 2 ^ 32

/-- The array index a Number value denotes when used as a property key of an array:
`some i` when the value is an integer `0 ≤ i < 2 ^ 32 - 1`, and `none` when the key is
not an array index (`NaN`, negative, fractional or too large). -/
def toArrayIndex : JSNumber → Option Nat
  | .nan => none
  | .infinity _ => none
  | .finite negative mant exp =>
    let (up, down) := pow2Parts exp
    let n := mant * up
    if n % down ≠ 0 then none
    else
      let v := n / down
      if v = 0 then some 0
      else if negative then none
      else if v < 2 ^ 32 - 1 then some v
      else none

/-! ## ECMAScript `StringToNumber` -/

/-- The code points of `WhiteSpace` and `LineTerminator`, which `StringToNumber` strips
from both ends. -/
def isStrWhiteSpaceChar (c : Char) : Bool :=
  let n := c.toNat
  n = 0x09 || n = 0x0A || n = 0x0B || n = 0x0C || n = 0x0D || n = 0x20 || n = 0xA0
    || n = 0x1680 || (0x2000 ≤ n && n ≤ 0x200A) || n = 0x2028 || n = 0x2029
    || n = 0x202F || n = 0x205F || n = 0x3000 || n = 0xFEFF

/-- The value of a digit in a base up to 16: `none` when the character is not a digit of
that base. -/
def digitValue (base : Nat) (c : Char) : Option Nat :=
  let n := c.toNat
  let v :=
    if 48 ≤ n ∧ n ≤ 57 then n - 48
    else if 97 ≤ n ∧ n ≤ 102 then n - 87
    else if 65 ≤ n ∧ n ≤ 70 then n - 55
    else 16
  if v < base then some v else none

def isDecimalDigit (c : Char) : Bool := (digitValue 10 c).isSome

/-- The value of a digit sequence in the given base, `none` when the sequence is empty or
holds a character that is not a digit of the base. -/
def digitsValue (base : Nat) (cs : List Char) : Option Nat :=
  match cs with
  | [] => none
  | _ => cs.foldl (fun acc c => acc.bind fun a => (digitValue base c).map fun v => a * base + v)
           (some 0)

/-- The Number value of the decimal `mant * 10 ^ e10` with the given sign, where `mant`
is written with `ndigits` digits: the decimal is rounded correctly, as V8 does for every
length of literal. Decimals that are certainly above the binary64 range or below half the
smallest binary64 value are answered without computing the power of ten. -/
def decimalToNumber (negative : Bool) (mant : Nat) (ndigits : Nat) (e10 : Int) : JSNumber :=
  if mant = 0 then .finite negative 0 0
  else if 309 ≤ e10 then .infinity negative
  else if e10 + ndigits ≤ -324 then .finite negative 0 0
  else if 0 ≤ e10 then roundToBinary64 negative (mant * 10 ^ e10.toNat) 1
  else roundToBinary64 negative mant (10 ^ (-e10).toNat)

/-- The exponent part of a decimal literal: nothing, or `e`/`E`, an optional sign and
digits. `none` when the text is not an exponent part. -/
def parseExponentPart (cs : List Char) : Option Int :=
  match cs with
  | [] => some 0
  | c :: rest =>
    if c = 'e' ∨ c = 'E' then
      match rest with
      | '+' :: ds => (digitsValue 10 ds).map fun v => (v : Int)
      | '-' :: ds => (digitsValue 10 ds).map fun v => -(v : Int)
      | ds => (digitsValue 10 ds).map fun v => (v : Int)
    else none

/-- The grammar `StrUnsignedDecimalLiteral`: `Infinity`, or digits with an optional
fraction and exponent. -/
def parseUnsignedDecimal (negative : Bool) (cs : List Char) : JSNumber :=
  if cs = "Infinity".toList then .infinity negative
  else
    let intDigits := cs.takeWhile isDecimalDigit
    let rest := cs.dropWhile isDecimalDigit
    let (fracDigits, rest) :=
      match rest with
      | '.' :: rest1 => (rest1.takeWhile isDecimalDigit, rest1.dropWhile isDecimalDigit)
      | _ => ([], rest)
    let digits := intDigits ++ fracDigits
    match digitsValue 10 digits, parseExponentPart rest with
    | some mant, some e =>
      decimalToNumber negative mant digits.length (e - (fracDigits.length : Int))
    | _, _ => .nan

/-- The grammar `StrNumericLiteral`: a signed decimal literal, or an unsigned binary,
octal or hexadecimal integer literal. -/
def parseStrNumericLiteral (cs : List Char) : JSNumber :=
  let nonDecimal (base : Nat) (ds : List Char) : JSNumber :=
    match digitsValue base ds with
    | some v => roundToBinary64 false v 1
    | none => .nan
  match cs with
  | '0' :: 'x' :: ds => nonDecimal 16 ds
  | '0' :: 'X' :: ds => nonDecimal 16 ds
  | '0' :: 'o' :: ds => nonDecimal 8 ds
  | '0' :: 'O' :: ds => nonDecimal 8 ds
  | '0' :: 'b' :: ds => nonDecimal 2 ds
  | '0' :: 'B' :: ds => nonDecimal 2 ds
  | '+' :: ds => parseUnsignedDecimal false ds
  | '-' :: ds => parseUnsignedDecimal true ds
  | ds => parseUnsignedDecimal false ds

/-- ECMAScript `StringToNumber`: white space is stripped from both ends, the empty string
is `+0`, a numeric literal has its value rounded to binary64, anything else is `NaN`. -/
def stringToNumber (s : String) : JSNumber :=
  let cs := ((s.toList.dropWhile isStrWhiteSpaceChar).reverse.dropWhile
    isStrWhiteSpaceChar).reverse
  match cs with
  | [] => .finite false 0 0
  | _ => parseStrNumericLiteral cs

/-- `ToNumber` of an array element read by index: `undefined` (no such element) is `NaN`,
a string goes through `StringToNumber`. -/
def toNumber : Option String → JSNumber
  | none => .nan
  | some s => stringToNumber s

/-! ## Strings and arrays -/

/-- `String.prototype.split` with a one-character separator, on the characters. -/
def splitChars (sep : Char) : List Char → List (List Char)
  | [] => [[]]
  | c :: cs =>
    if c = sep then [] :: splitChars sep cs
    else
      match splitChars sep cs with
      | [] => [[c]]
      | part :: parts => (c :: part) :: parts

/-- `s.split(sep)` for a one-character separator `sep`. -/
def jsSplit (s : String) (sep : Char) : List String :=
  (splitChars sep s.toList).map String.mk

/-- `Array.prototype.join` on an array of strings. -/
def jsJoin (sep : String) : List String → String
  | [] => ""
  | [x] => x
  | x :: xs => x ++ sep ++ jsJoin sep xs

/-- `ToString` of a Number value in the int32 range, given by its 32-bit pattern: the
decimal digits of the signed value. -/
def int32ToString (bits : Nat) : String :=
  if bits < 2 ^ 31 then toString bits else "-" ++ toString (2 ^ 32 - bits)

/-- The operator `x & y` on array elements. -/
def jsBitAnd (x y : Nat) : Nat := x &&& y

/-- The operator `x | y` on int32 patterns. -/
def jsBitOr (x y : Nat) : Nat := x ||| y

/-- The operator `~x` on an int32 pattern. -/
def jsBitNot (x : Nat) : Nat := 2 ^ 32 - 1 - x

/-! ## `getBroadcastIPv4Address` -/

/-- The function `getBroadcastIPv4Address` of the source: both arguments are split at
the dots, the first four parts of each are coerced to int32 by the bitwise operators, and
the four results are joined with dots. -/
def getBroadcastIPv4Address (ipv4Address subnetMask : String) : String :=
  let ipv4AddressArray := jsSplit ipv4Address '.'
  let subnetMaskArray := jsSplit subnetMask '.'
  let elem (arr : List String) (i : Nat) : Nat := toInt32 (toNumber arr[i]?)
  let ipv4NetworkAddressArray : List Nat := [
    jsBitAnd (elem ipv4AddressArray 0) (elem subnetMaskArray 0),
    jsBitAnd (elem ipv4AddressArray 1) (elem subnetMaskArray 1),
    jsBitAnd (elem ipv4AddressArray 2) (elem subnetMaskArray 2),
    jsBitAnd (elem ipv4AddressArray 3) (elem subnetMaskArray 3)]
  let ipv4BroadcastAddressArray : List Nat := [
    jsBitOr (ipv4NetworkAddressArray.getD 0 0) (jsBitAnd (jsBitNot (elem subnetMaskArray 0)) 255),
    jsBitOr (ipv4NetworkAddressArray.getD 1 0) (jsBitAnd (jsBitNot (elem subnetMaskArray 1)) 255),
    jsBitOr (ipv4NetworkAddressArray.getD 2 0) (jsBitAnd (jsBitNot (elem subnetMaskArray 2)) 255),
    jsBitOr (ipv4NetworkAddressArray.getD 3 0) (jsBitAnd (jsBitNot (elem subnetMaskArray 3)) 255)]
  jsJoin "." (ipv4BroadcastAddressArray.map int32ToString)

/-! ## `getCurrentDateString` -/

/-- What the getters of the `Date` object made by `new Date()` return: `getFullYear()`,
`getMonth()` (January is 0), `getDate()`, `getHours()`, `getMinutes()`, `getSeconds()`. -/
structure JSDate where
  fullYear : Int
  month : Nat
  date : Nat
  hours : Nat
  minutes : Nat
  seconds : Nat

/-- `s.slice(start)`: a negative `start` counts from the end of the string. -/
def jsSlice (s : String) (start : Int) : String :=
  let len : Int := s.length
  let k := if start < 0 then max (len + start) 0 else min start len
  String.mk (s.toList.drop k.toNat)

/-- The function `getCurrentDateString` of the source, on the date that `new Date()`
yields: `yyyy/mm/dd hh:MM:ss`. -/
def getCurrentDateString (d : JSDate) : String :=
  toString d.fullYear ++ "/" ++ jsSlice ("00" ++ toString (d.month + 1)) (-2) ++ "/"
    ++ jsSlice ("00" ++ toString d.date) (-2) ++ " "
    ++ jsSlice ("00" ++ toString d.hours) (-2) ++ ":"
    ++ jsSlice ("00" ++ toString d.minutes) (-2) ++ ":"
    ++ jsSlice ("00" ++ toString d.seconds) (-2)

/-! ## The host and the submitted form -/

/-- One entry of `os.networkInterfaces()`, with the properties the handler reads. -/
structure NetworkInterfaceInfo where
  address : String
  netmask : String
  family : String
  internal : Bool

/-- The arguments of one call of `wol.wake`: the MAC address (`none` is `undefined`) and
the `address` option (`none` when the call passes no options). -/
structure WakeCall where
  mac : Option String
  address : Option String
deriving DecidableEq

/-- Whether the transmission started by a call of `wol.wake` succeeded locally. The
package reports it to the callback of the call. -/
inductive SendOutcome where
  | succeeded
  | failed
deriving DecidableEq

/-- The host a request is served on: `os.platform()`, `os.networkInterfaces()` as the
pairs of `Object.keys` order, the date `new Date()` yields, and what a call of `wol.wake`
does. The code of `wol.wake` belongs to the `wake_on_lan` package, so the host supplies
it: `wakeThrows` tells whether a call with these arguments throws (the package throws on
a MAC address it cannot read, `undefined` included), and `wake` gives the local outcome
of the transmission that a call which returns has started. -/
structure Host where
  platform : String
  networkInterfaces : List (String × List NetworkInterfaceInfo)
  now : JSDate
  wake : WakeCall → SendOutcome
  wakeThrows : WakeCall → Bool

/-- A property of the object `querystring.parse` returns: absent, a string (the key
occurs once in the body) or an array of strings (the key occurs several times). -/
inductive QSValue where
  | undefined
  | str (s : String)
  | arr (xs : List String)
deriving DecidableEq

/-- The properties of `parsedPostData` that the handler reads. -/
structure ParsedPostData where
  action : QSValue
  targetmacaddress : QSValue
  status : QSValue

/-- The exceptions that end the handler: the `TypeError` of calling `split` on
`undefined`, and the exception thrown by a call of `wol.wake`. The handler has no
`try`, so either one leaves the callback at once. -/
inductive JSError where
  | typeError
  | wakeError
deriving DecidableEq

/-- `ToNumber` of a property of `parsedPostData`: an array is first converted to the
string of its elements joined by commas. -/
def qsToNumber : QSValue → JSNumber
  | .undefined => .nan
  | .str s => stringToNumber s
  | .arr xs => stringToNumber (jsJoin "," xs)

/-- The expression `(Array.isArray(v) == true) ? v : v.split(',')`. Calling `split` on
`undefined` raises a `TypeError`. The elements of the array are `some`; `none` stands
for a missing element. -/
def arrayOrSplit : QSValue → Except JSError (List (Option String))
  | .undefined => .error .typeError
  | .str s => .ok ((jsSplit s ',').map some)
  | .arr xs => .ok (xs.map some)

/-- The expression `arr[key]` for a Number `key`: `undefined` when the key is not the
index of an element. -/
def arrayGet (arr : List (Option String)) (key : JSNumber) : Option String :=
  match toArrayIndex key with
  | some i => (arr[i]?).join
  | none => none

/-- The assignment `arr[key] = v` for a Number `key`: an index inside the array replaces
the element, an index past the end extends the array with missing elements, and a key
that is not an array index leaves elements and length as they are. -/
def arraySet (arr : List (Option String)) (key : JSNumber) (v : String) :
    List (Option String) :=
  match toArrayIndex key with
  | some i =>
    if i < arr.length then arr.set i (some v)
    else arr ++ List.replicate (i - arr.length) none ++ [some v]
  | none => arr

/-- A value in a template literal: `undefined` is printed as the word. -/
def templateString : Option String → String
  | some s => s
  | none => "undefined"

/-! ## The POST handler -/

/-- Equality of results that may be an exception is decidable. -/
instance instDecidableEqExcept {ε α : Type} [DecidableEq ε] [DecidableEq α] :
    DecidableEq (Except ε α) := fun a b =>
  match a, b with
  | .ok x, .ok y =>
    if h : x = y then isTrue (by rw [h]) else isFalse (fun e => h (Except.ok.inj e))
  | .error x, .error y =>
    if h : x = y then isTrue (by rw [h]) else isFalse (fun e => h (Except.error.inj e))
  | .ok _, .error _ => isFalse (fun e => Except.noConfusion e)
  | .error _, .ok _ => isFalse (fun e => Except.noConfusion e)

/-- What the `end` callback of a POST request has done after both form fields are made
arrays: the calls of `wol.wake` that returned, in order, each with the local outcome of
its transmission, the array `broadcastIPv4Addresses`, and either the array `statuses`
passed to `createHtmlData` or the exception of a call of `wol.wake` that threw, which
ends the callback before the status is written. -/
structure PostOutcome where
  sends : List (WakeCall × SendOutcome)
  broadcastIPv4Addresses : List String
  statuses : Except JSError (List (Option String))
deriving DecidableEq

/-- The two nested `forEach` loops that fill `broadcastIPv4Addresses`. -/
def collectBroadcastIPv4Addresses
    (interfaces : List (String × List NetworkInterfaceInfo)) : List String :=
  interfaces.foldl
    (fun acc entry =>
      entry.2.foldl
        (fun acc iface =>
          if iface.internal = false ∧ iface.family = "IPv4" then
            acc ++ [getBroadcastIPv4Address iface.address iface.netmask]
          else acc)
        acc)
    []

/-- One call of `wol.wake` inside the platform branch, on the calls that returned so far
and the exception thrown so far: nothing more is called after an exception, a call that
throws adds the exception, and a call that returns is added to the calls. The handler
passes no callback and drops what the call returns. -/
def callWake (host : Host) (state : List (WakeCall × SendOutcome) × Option JSError)
    (call : WakeCall) : List (WakeCall × SendOutcome) × Option JSError :=
  match state.2 with
  | some e => (state.1, some e)
  | none =>
    if host.wakeThrows call then (state.1, some .wakeError)
    else (state.1 ++ [(call, host.wake call)], none)

/-- The platform branch: on `win32` one `wol.wake(targetMacAddress, { address: value })`
per element of `broadcastIPv4Addresses`, otherwise one `wol.wake(targetMacAddress)`. The
result is the calls that returned and the exception that left the branch, if any. -/
def sendMagicPackets (host : Host) (targetMacAddress : Option String)
    (broadcastIPv4Addresses : List String) :
    List (WakeCall × SendOutcome) × Option JSError :=
  if host.platform = "win32" then
    broadcastIPv4Addresses.foldl
      (fun state value => callWake host state ⟨targetMacAddress, some value⟩)
      ([], none)
  else
    callWake host ([], none) ⟨targetMacAddress, none⟩

/-- The `end` callback of a POST request to `/`, from `qs.parse(postData)` to the call
of `createHtmlData(statuses)`. The result is an error when a form field is missing, and
otherwise tells how far the callback got. -/
def onPostEnd (host : Host) (parsedPostData : ParsedPostData) : Except JSError PostOutcome :=
  let dataIndex := jsMinusOne (qsToNumber parsedPostData.action)
  match arrayOrSplit parsedPostData.targetmacaddress with
  | .error e => .error e
  | .ok targetMacAddresses =>
    let targetMacAddress := arrayGet targetMacAddresses dataIndex
    match arrayOrSplit parsedPostData.status with
    | .error e => .error e
    | .ok statuses =>
      let broadcastIPv4Addresses := collectBroadcastIPv4Addresses host.networkInterfaces
      let sent := sendMagicPackets host targetMacAddress broadcastIPv4Addresses
      let status := getCurrentDateString host.now ++ " | " ++ templateString targetMacAddress
        ++ " | Sent magic packet to " ++ jsJoin "," broadcastIPv4Addresses
      match sent.2 with
      | some e => .ok ⟨sent.1, broadcastIPv4Addresses, .error e⟩
      | none => .ok ⟨sent.1, broadcastIPv4Addresses, .ok (arraySet statuses dataIndex status)⟩

/-! ## The magic packet -/

/-- The failure of the packet builder. -/
inductive PacketError where
  | invalidMacAddress
deriving DecidableEq

/-- Modelled from the spec: the magic-packet builder `buildPacket`, which the repository
reaches through `wol.wake` of the `wake_on_lan` package and whose code is not under
`src/`. A MAC address is its list of octets; the packet is 6 bytes `0xFF` followed by the
address 16 times, and the builder fails unless the address is exactly 6 octets in
`[0, 255]`. -/
def buildPacket (mac : List Nat) : Except PacketError (List Nat) :=
  if mac.length = 6 ∧ ∀ o ∈ mac, o ≤ 255 then
    .ok (List.replicate 6 0xFF ++ (List.replicate 16 mac).flatten)
  else .error .invalidMacAddress

/-! ## Vocabulary of the specification -/

/-- The dotted-decimal text of four octets. -/
def dotted (o0 o1 o2 o3 : Nat) : String :=
  toString o0 ++ "." ++ toString o1 ++ "." ++ toString o2 ++ "." ++ toString o3

/-- The broadcast octet in the words of the specification, on 8-bit values:
`(a AND m) OR ((NOT m) AND 255)`. -/
def specBroadcastOctet (a m : Nat) : Nat :=
  ((BitVec.ofNat 8 a &&& BitVec.ofNat 8 m) ||| (~~~ BitVec.ofNat 8 m &&& 255#8)).toNat

/-- The 32-bit big-endian number of four octets. -/
def ipv4Value (o0 o1 o2 o3 : Nat) : Nat :=
  ((o0 * 256 + o1) * 256 + o2) * 256 + o3

/-- The interface entries that qualify for a broadcast destination, in the order the
handler visits them: IPv4 and not internal. -/
def qualifyingInterfaces (interfaces : List (String × List NetworkInterfaceInfo)) :
    List NetworkInterfaceInfo :=
  (interfaces.map Prod.snd).flatten.filter
    (fun iface => decide (iface.internal = false ∧ iface.family = "IPv4"))

/-! ## Concrete hosts and forms -/

/-- A MAC address text of six pairs of hexadecimal digits, in either case, joined by
colons or joined by hyphens. -/
def isMacAddressText (s : String) : Bool :=
  match s.toList with
  | [a1, a2, s1, b1, b2, s2, c1, c2, s3, d1, d2, s4, e1, e2, s5, f1, f2] =>
    [a1, a2, b1, b2, c1, c2, d1, d2, e1, e2, f1, f2].all
        (fun c => (digitValue 16 c).isSome)
      && (s1 = ':' || s1 = '-') && [s2, s3, s4, s5].all (fun c => c = s1)
  | _ => false

/-- A `wol.wake` that throws on `undefined` and on a text that is not a MAC address,
whatever the destination. -/
def throwsOnBadMac (call : WakeCall) : Bool :=
  match call.mac with
  | some mac => !isMacAddressText mac
  | none => true

/-- A host with a loopback interface and two network interfaces, `eth0` with an IPv4 and
an IPv6 entry and `wlan0` with an IPv4 entry; the platform and the outcome of every send
are parameters. -/
def sampleHost (platform : String) (outcome : SendOutcome) : Host where
  platform := platform
  networkInterfaces :=
    [("lo", [⟨"127.0.0.1", "255.0.0.0", "IPv4", true⟩,
             ⟨"::1", "ffff:ffff:ffff:ffff:ffff:ffff:ffff:ffff", "IPv6", true⟩]),
     ("eth0", [⟨"192.168.1.50", "255.255.255.0", "IPv4", false⟩,
               ⟨"fe80::1", "ffff:ffff:ffff:ffff::", "IPv6", false⟩]),
     ("wlan0", [⟨"10.0.5.37", "255.255.0.0", "IPv4", false⟩])]
  now := ⟨2024, 0, 5, 7, 8, 9⟩
  wake := fun _ => outcome
  wakeThrows := throwsOnBadMac

/-- A host whose only interface is the loopback. -/
def loopbackOnlyHost (platform : String) : Host where
  platform := platform
  networkInterfaces :=
    [("lo", [⟨"127.0.0.1", "255.0.0.0", "IPv4", true⟩,
             ⟨"::1", "ffff:ffff:ffff:ffff:ffff:ffff:ffff:ffff", "IPv6", true⟩])]
  now := ⟨2024, 0, 5, 7, 8, 9⟩
  wake := fun _ => .succeeded
  wakeThrows := throwsOnBadMac

/-- The form of a page with two rows, submitted with the button of row 2. -/
def twoRowForm : ParsedPostData where
  action := .str "2"
  targetmacaddress := .arr ["AA:BB:CC:DD:EE:FF", "11-22-33-44-55-66"]
  status := .arr ["2024/01/01 00:00:00 | AA:BB:CC:DD:EE:FF | Sent magic packet to 192.168.1.255", ""]

/-- The form of a page with one row whose configured MAC address lacks an octet. -/
def shortMacForm : ParsedPostData where
  action := .str "1"
  targetmacaddress := .str "AA:BB:CC:DD:EE"
  status := .str ""

/-- The form of a page with one row, submitted again after a first dispatch on a host
with two network interfaces: the status text holds the two destinations of that dispatch. -/
def oneRowForm : ParsedPostData where
  action := .str "1"
  targetmacaddress := .str "AA:BB:CC:DD:EE:FF"
  status := .str "2024/01/01 00:00:00 | AA:BB:CC:DD:EE:FF | Sent magic packet to 192.168.1.255,10.0.255.255"

/-! ## Lemmas on `getBroadcastIPv4Address` -/

theorem splitChars_of_not_mem (sep : Char) (cs : List Char) (h : sep ∉ cs) :
    splitChars sep cs = [cs] := by
  induction cs with
  | nil => rfl
  | cons c cs ih =>
    have hc : c ≠ sep := fun e => h (by simp [e])
    have hcs : sep ∉ cs := fun e => h (by simp [e])
    simp [splitChars, hc, ih hcs]

theorem splitChars_append_sep (sep : Char) (cs rest : List Char) (h : sep ∉ cs) :
    splitChars sep (cs ++ sep :: rest) = cs :: splitChars sep rest := by
  induction cs with
  | nil => simp [splitChars]
  | cons c cs ih =>
    have hc : c ≠ sep := fun e => h (by simp [e])
    have hcs : sep ∉ cs := fun e => h (by simp [e])
    simp [splitChars, hc, ih hcs]

set_option maxRecDepth 100000 in
theorem octet_text_no_dot : ∀ n, n < 256 → '.' ∉ (toString n).toList := by
  decide

set_option maxRecDepth 100000 in
theorem octet_text_value : ∀ n, n < 256 → toInt32 (stringToNumber (toString n)) = n := by
  decide

theorem jsSplit_dotted (o0 o1 o2 o3 : Nat) (h0 : o0 < 256) (h1 : o1 < 256) (h2 : o2 < 256)
    (h3 : o3 < 256) :
    jsSplit (dotted o0 o1 o2 o3) '.' = [toString o0, toString o1, toString o2, toString o3] := by
  have e : (dotted o0 o1 o2 o3).toList =
      (toString o0).toList ++ '.' :: ((toString o1).toList ++ '.' ::
        ((toString o2).toList ++ '.' :: (toString o3).toList)) := by
    simp [dotted, String.toList]
  unfold jsSplit
  rw [e, splitChars_append_sep _ _ _ (octet_text_no_dot o0 h0),
    splitChars_append_sep _ _ _ (octet_text_no_dot o1 h1),
    splitChars_append_sep _ _ _ (octet_text_no_dot o2 h2),
    splitChars_of_not_mem _ _ (octet_text_no_dot o3 h3)]
  simp [String.toList]


/-- The octet computed by the source: `(a & m) | (~m & 255)` on int32 patterns. -/
theorem broadcast_bits_eq (a m : Nat) (hm : m < 256) :
    jsBitOr (jsBitAnd a m) (jsBitAnd (jsBitNot m) 255) = (a &&& m) ||| (255 - m) := by
  unfold jsBitOr jsBitAnd jsBitNot
  have h : (2 ^ 32 - 1 - m) &&& 255 = 255 - m := by
    have := Nat.and_pow_two_sub_one_eq_mod (2 ^ 32 - 1 - m) 8
    norm_num at this
    norm_num
    rw [this]
    omega
  rw [h]

theorem specBroadcastOctet_eq (a m : Nat) (ha : a < 256) (hm : m < 256) :
    specBroadcastOctet a m = (a &&& m) ||| (255 - m) := by
  unfold specBroadcastOctet
  simp only [BitVec.toNat_or, BitVec.toNat_and, BitVec.toNat_not, BitVec.toNat_ofNat]
  have h1 : a % 2 ^ 8 = a := Nat.mod_eq_of_lt (by omega)
  have h2 : m % 2 ^ 8 = m := Nat.mod_eq_of_lt (by omega)
  rw [h1, h2]
  have h : (2 ^ 8 - 1 - m) &&& (255 % 2 ^ 8) = 255 - m := by
    have := Nat.and_pow_two_sub_one_eq_mod (2 ^ 8 - 1 - m) 8
    norm_num at this
    norm_num
    rw [this]
    omega
  rw [h]

theorem broadcast_bits_lt (a m : Nat) (hm : m < 256) :
    (a &&& m) ||| (255 - m) < 256 := by
  have h1 : a &&& m < 2 ^ 8 := Nat.and_lt_two_pow _ (by omega)
  have h2 : 255 - m < 2 ^ 8 := by omega
  exact Nat.or_lt_two_pow h1 h2

theorem int32ToString_of_lt (n : Nat) (h : n < 256) : int32ToString n = toString n := by
  unfold int32ToString
  rw [if_pos (by omega)]

theorem getBroadcastIPv4Address_dotted (a0 a1 a2 a3 m0 m1 m2 m3 : Nat)
    (ha0 : a0 < 256) (ha1 : a1 < 256) (ha2 : a2 < 256) (ha3 : a3 < 256)
    (hm0 : m0 < 256) (hm1 : m1 < 256) (hm2 : m2 < 256) (hm3 : m3 < 256) :
    getBroadcastIPv4Address (dotted a0 a1 a2 a3) (dotted m0 m1 m2 m3) =
      dotted ((a0 &&& m0) ||| (255 - m0)) ((a1 &&& m1) ||| (255 - m1))
        ((a2 &&& m2) ||| (255 - m2)) ((a3 &&& m3) ||| (255 - m3)) := by
  unfold getBroadcastIPv4Address
  simp only [jsSplit_dotted _ _ _ _ ha0 ha1 ha2 ha3, jsSplit_dotted _ _ _ _ hm0 hm1 hm2 hm3]
  simp only [List.getElem?_cons_zero, List.getElem?_cons_succ, toNumber, List.getD_cons_zero,
    List.getD_cons_succ, octet_text_value _ ha0, octet_text_value _ ha1, octet_text_value _ ha2,
    octet_text_value _ ha3, octet_text_value _ hm0, octet_text_value _ hm1,
    octet_text_value _ hm2, octet_text_value _ hm3,
    broadcast_bits_eq _ _ hm0, broadcast_bits_eq _ _ hm1, broadcast_bits_eq _ _ hm2,
    broadcast_bits_eq _ _ hm3, List.map_cons, List.map_nil,
    int32ToString_of_lt _ (broadcast_bits_lt a0 _ hm0),
    int32ToString_of_lt _ (broadcast_bits_lt a1 _ hm1),
    int32ToString_of_lt _ (broadcast_bits_lt a2 _ hm2),
    int32ToString_of_lt _ (broadcast_bits_lt a3 _ hm3)]
  simp [jsJoin, dotted, String.append_assoc]


/-! ## Lemmas on the handler's loops -/

theorem collect_inner (entries : List NetworkInterfaceInfo) (acc : List String) :
    entries.foldl
        (fun acc iface =>
          if iface.internal = false ∧ iface.family = "IPv4" then
            acc ++ [getBroadcastIPv4Address iface.address iface.netmask]
          else acc)
        acc =
      acc ++ (entries.filter
        (fun iface => decide (iface.internal = false ∧ iface.family = "IPv4"))).map
        (fun iface => getBroadcastIPv4Address iface.address iface.netmask) := by
  induction entries generalizing acc with
  | nil => simp
  | cons e es ih =>
    rw [List.foldl_cons, ih]
    by_cases h : e.internal = false ∧ e.family = "IPv4"
    · simp [h, List.filter_cons]
    · simp [h, List.filter_cons]

theorem collect_outer (interfaces : List (String × List NetworkInterfaceInfo))
    (acc : List String) :
    interfaces.foldl
        (fun acc entry =>
          entry.2.foldl
            (fun acc iface =>
              if iface.internal = false ∧ iface.family = "IPv4" then
                acc ++ [getBroadcastIPv4Address iface.address iface.netmask]
              else acc)
            acc)
        acc =
      acc ++ (qualifyingInterfaces interfaces).map
        (fun iface => getBroadcastIPv4Address iface.address iface.netmask) := by
  induction interfaces generalizing acc with
  | nil => simp [qualifyingInterfaces]
  | cons e es ih =>
    rw [List.foldl_cons, ih, collect_inner]
    simp [qualifyingInterfaces, List.append_assoc]

theorem collectBroadcastIPv4Addresses_eq
    (interfaces : List (String × List NetworkInterfaceInfo)) :
    collectBroadcastIPv4Addresses interfaces =
      (qualifyingInterfaces interfaces).map
        (fun iface => getBroadcastIPv4Address iface.address iface.netmask) := by
  unfold collectBroadcastIPv4Addresses
  rw [collect_outer]
  simp

theorem wake_loop (host : Host) (mac : Option String) (addrs : List String)
    (trace : List (WakeCall × SendOutcome))
    (h : ∀ value ∈ addrs, host.wakeThrows ⟨mac, some value⟩ = false) :
    addrs.foldl (fun state value => callWake host state ⟨mac, some value⟩) (trace, none) =
      (trace ++ addrs.map
        (fun value => ((⟨mac, some value⟩ : WakeCall), host.wake ⟨mac, some value⟩)), none) := by
  induction addrs generalizing trace with
  | nil => simp
  | cons a as ih =>
    have ha : host.wakeThrows ⟨mac, some a⟩ = false := h a (by simp)
    have has : ∀ value ∈ as, host.wakeThrows ⟨mac, some value⟩ = false :=
      fun value hv => h value (by simp [hv])
    rw [List.foldl_cons]
    have step : callWake host (trace, none) ⟨mac, some a⟩ =
        (trace ++ [((⟨mac, some a⟩ : WakeCall), host.wake ⟨mac, some a⟩)], none) := by
      simp [callWake, ha]
    rw [step, ih _ has]
    simp [List.append_assoc]

theorem sendMagicPackets_win32 (host : Host) (mac : Option String) (addrs : List String)
    (hp : host.platform = "win32")
    (h : ∀ value ∈ addrs, host.wakeThrows ⟨mac, some value⟩ = false) :
    sendMagicPackets host mac addrs =
      (addrs.map (fun value => ((⟨mac, some value⟩ : WakeCall), host.wake ⟨mac, some value⟩)),
        none) := by
  unfold sendMagicPackets
  rw [if_pos hp, wake_loop host mac addrs [] h]
  simp

theorem sendMagicPackets_other (host : Host) (mac : Option String) (addrs : List String)
    (hp : host.platform ≠ "win32") (h : host.wakeThrows ⟨mac, none⟩ = false) :
    sendMagicPackets host mac addrs =
      ([((⟨mac, none⟩ : WakeCall), host.wake ⟨mac, none⟩)], none) := by
  unfold sendMagicPackets
  rw [if_neg hp]
  simp [callWake, h]

theorem sendMagicPackets_other_throws (host : Host) (mac : Option String)
    (addrs : List String) (hp : host.platform ≠ "win32")
    (h : host.wakeThrows ⟨mac, none⟩ = true) :
    sendMagicPackets host mac addrs = ([], some .wakeError) := by
  unfold sendMagicPackets
  rw [if_neg hp]
  simp [callWake, h]

theorem sendMagicPackets_win32_nil (host : Host) (mac : Option String)
    (hp : host.platform = "win32") : sendMagicPackets host mac [] = ([], none) := by
  unfold sendMagicPackets
  rw [if_pos hp]
  rfl

theorem callWake_thrown_congr (host : Host) (wake1 wake2 : WakeCall → SendOutcome)
    (st1 st2 : List (WakeCall × SendOutcome) × Option JSError) (call : WakeCall)
    (h : st1.2 = st2.2) :
    (callWake { host with wake := wake1 } st1 call).2 =
      (callWake { host with wake := wake2 } st2 call).2 := by
  unfold callWake
  rw [h]
  cases st2.2 with
  | some e => rfl
  | none =>
    simp only
    cases host.wakeThrows call <;> simp

theorem wake_loop_thrown_congr (host : Host) (wake1 wake2 : WakeCall → SendOutcome)
    (mac : Option String) (addrs : List String)
    (st1 st2 : List (WakeCall × SendOutcome) × Option JSError) (h : st1.2 = st2.2) :
    (addrs.foldl (fun state value =>
        callWake { host with wake := wake1 } state ⟨mac, some value⟩) st1).2 =
      (addrs.foldl (fun state value =>
        callWake { host with wake := wake2 } state ⟨mac, some value⟩) st2).2 := by
  induction addrs generalizing st1 st2 with
  | nil => simpa using h
  | cons a as ih =>
    rw [List.foldl_cons, List.foldl_cons]
    exact ih _ _ (callWake_thrown_congr host wake1 wake2 st1 st2 _ h)

/-- Whether the platform branch is left by an exception does not depend on the outcomes
of the transmissions. -/
theorem sendMagicPackets_thrown_congr (host : Host) (wake1 wake2 : WakeCall → SendOutcome)
    (mac : Option String) (addrs : List String) :
    (sendMagicPackets { host with wake := wake1 } mac addrs).2 =
      (sendMagicPackets { host with wake := wake2 } mac addrs).2 := by
  unfold sendMagicPackets
  by_cases hp : host.platform = "win32"
  · simp only [hp, if_true]
    exact wake_loop_thrown_congr host wake1 wake2 mac addrs _ _ rfl
  · simp only [hp, if_false]
    exact callWake_thrown_congr host wake1 wake2 _ _ _ rfl

/-- The handler's result when both form fields are present. -/
theorem onPostEnd_ok (host : Host) (form : ParsedPostData)
    (targetMacAddresses statuses : List (Option String))
    (hmac : arrayOrSplit form.targetmacaddress = .ok targetMacAddresses)
    (hst : arrayOrSplit form.status = .ok statuses) :
    onPostEnd host form = .ok
      ⟨(sendMagicPackets host
          (arrayGet targetMacAddresses (jsMinusOne (qsToNumber form.action)))
          (collectBroadcastIPv4Addresses host.networkInterfaces)).1,
        collectBroadcastIPv4Addresses host.networkInterfaces,
        match (sendMagicPackets host
          (arrayGet targetMacAddresses (jsMinusOne (qsToNumber form.action)))
          (collectBroadcastIPv4Addresses host.networkInterfaces)).2 with
        | some e => .error e
        | none => .ok (arraySet statuses (jsMinusOne (qsToNumber form.action))
          (getCurrentDateString host.now ++ " | "
            ++ templateString (arrayGet targetMacAddresses (jsMinusOne (qsToNumber form.action)))
            ++ " | Sent magic packet to "
            ++ jsJoin "," (collectBroadcastIPv4Addresses host.networkInterfaces)))⟩ := by
  unfold onPostEnd
  simp only [hmac, hst]
  split <;> simp_all

/-! ## Lemmas on the broadcast octet -/

theorem broadcast_octet_and_mask (a m : Nat) (hm : m < 256) :
    ((a &&& m) ||| (255 - m)) &&& m = a &&& m := by
  apply Nat.eq_of_testBit_eq
  intro i
  have h : (255 - m).testBit i = (decide (i < 8) && !m.testBit i) := by
    have e : 255 - m = 2 ^ 8 - (m + 1) := by omega
    rw [e]
    exact Nat.testBit_two_pow_sub_succ (by omega) i
  simp only [Nat.testBit_and, Nat.testBit_or, h]
  cases a.testBit i <;> cases m.testBit i <;> simp

theorem le_broadcast_octet (a m x : Nat) (hm : m < 256) (hx : x < 256)
    (h : x &&& m = a &&& m) : x ≤ (a &&& m) ||| (255 - m) := by
  apply Nat.le_of_testBit
  intro i hi
  have hi8 : i < 8 := by
    by_contra hge
    have hlt : x < 2 ^ i :=
      Nat.lt_of_lt_of_le hx (by
        have : (2 : Nat) ^ 8 ≤ 2 ^ i := Nat.pow_le_pow_right (by omega) (by omega)
        simpa using this)
    rw [Nat.testBit_lt_two_pow hlt] at hi
    exact Bool.noConfusion hi
  have h255 : (255 - m).testBit i = (decide (i < 8) && !m.testBit i) := by
    have e : 255 - m = 2 ^ 8 - (m + 1) := by omega
    rw [e]
    exact Nat.testBit_two_pow_sub_succ (by omega) i
  have hb : (x &&& m).testBit i = (a &&& m).testBit i := by rw [h]
  simp only [Nat.testBit_and, hi, Bool.true_and] at hb
  simp only [Nat.testBit_or, Nat.testBit_and, h255, hi8, decide_True, Bool.true_and]
  cases hmi : m.testBit i
  · simp
  · rw [hmi] at hb
    simp [← hb]

theorem ipv4Value_mono (x0 x1 x2 x3 b0 b1 b2 b3 : Nat) (h0 : x0 ≤ b0) (h1 : x1 ≤ b1)
    (h2 : x2 ≤ b2) (h3 : x3 ≤ b3) : ipv4Value x0 x1 x2 x3 ≤ ipv4Value b0 b1 b2 b3 := by
  unfold ipv4Value
  omega

/-! ## Properties of `getBroadcastIPv4Address` -/

/-- C1: for an address `a0.a1.a2.a3` and a mask `m0.m1.m2.m3` with octets in `[0, 255]`,
`getBroadcastIPv4Address` returns the dotted-decimal text of the octets
`(ai AND mi) OR ((NOT mi) AND 255)`, whatever the shape of the mask; in particular
`("192.168.11.1", "255.255.255.0")` gives `"192.168.11.255"` and
`("10.0.5.37", "255.255.0.0")` gives `"10.0.255.255"`. -/
theorem getBroadcastIPv4Address_octetwise (a0 a1 a2 a3 m0 m1 m2 m3 : Nat)
    (ha0 : a0 ≤ 255) (ha1 : a1 ≤ 255) (ha2 : a2 ≤ 255) (ha3 : a3 ≤ 255)
    (hm0 : m0 ≤ 255) (hm1 : m1 ≤ 255) (hm2 : m2 ≤ 255) (hm3 : m3 ≤ 255) :
    getBroadcastIPv4Address (dotted a0 a1 a2 a3) (dotted m0 m1 m2 m3) =
        dotted (specBroadcastOctet a0 m0) (specBroadcastOctet a1 m1)
          (specBroadcastOctet a2 m2) (specBroadcastOctet a3 m3)
      ∧ getBroadcastIPv4Address "192.168.11.1" "255.255.255.0" = "192.168.11.255"
      ∧ getBroadcastIPv4Address "10.0.5.37" "255.255.0.0" = "10.0.255.255" := by
  refine ⟨?_, by decide, by decide⟩
  rw [getBroadcastIPv4Address_dotted a0 a1 a2 a3 m0 m1 m2 m3 (by omega) (by omega) (by omega)
    (by omega) (by omega) (by omega) (by omega) (by omega),
    specBroadcastOctet_eq a0 m0 (by omega) (by omega),
    specBroadcastOctet_eq a1 m1 (by omega) (by omega),
    specBroadcastOctet_eq a2 m2 (by omega) (by omega),
    specBroadcastOctet_eq a3 m3 (by omega) (by omega)]

/-- Witness of C1 at the address 10.1.2.3 with the non-contiguous mask 255.0.255.0. -/
theorem getBroadcastIPv4Address_octetwise_witness :
    (10 ≤ 255 ∧ 1 ≤ 255 ∧ 2 ≤ 255 ∧ 3 ≤ 255 ∧ 255 ≤ 255 ∧ 0 ≤ 255 ∧ 255 ≤ 255 ∧ 0 ≤ 255)
      ∧ (getBroadcastIPv4Address (dotted 10 1 2 3) (dotted 255 0 255 0) =
          dotted (specBroadcastOctet 10 255) (specBroadcastOctet 1 0)
            (specBroadcastOctet 2 255) (specBroadcastOctet 3 0)
        ∧ getBroadcastIPv4Address "192.168.11.1" "255.255.255.0" = "192.168.11.255"
        ∧ getBroadcastIPv4Address "10.0.5.37" "255.255.0.0" = "10.0.255.255") :=
  ⟨by decide, getBroadcastIPv4Address_octetwise 10 1 2 3 255 0 255 0 (by decide) (by decide)
    (by decide) (by decide) (by decide) (by decide) (by decide) (by decide)⟩

/-- C2: for a valid address, the mask `255.255.255.255` returns the address unchanged and
the mask `0.0.0.0` returns `255.255.255.255`. -/
theorem getBroadcastIPv4Address_full_and_zero_mask (a0 a1 a2 a3 : Nat)
    (ha0 : a0 ≤ 255) (ha1 : a1 ≤ 255) (ha2 : a2 ≤ 255) (ha3 : a3 ≤ 255) :
    getBroadcastIPv4Address (dotted a0 a1 a2 a3) "255.255.255.255" = dotted a0 a1 a2 a3
      ∧ getBroadcastIPv4Address (dotted a0 a1 a2 a3) "0.0.0.0" = "255.255.255.255" := by
  have e255 : "255.255.255.255" = dotted 255 255 255 255 := by decide
  have e0 : "0.0.0.0" = dotted 0 0 0 0 := by decide
  have full : ∀ a, a ≤ 255 → (a &&& 255) ||| (255 - 255) = a := by
    intro a ha
    have := Nat.and_pow_two_sub_one_eq_mod a 8
    norm_num at this
    rw [this]
    simp
    omega
  have zero : ∀ a : Nat, (a &&& 0) ||| (255 - 0) = 255 := by
    intro a
    simp
  constructor
  · rw [e255, getBroadcastIPv4Address_dotted a0 a1 a2 a3 255 255 255 255 (by omega) (by omega)
      (by omega) (by omega) (by omega) (by omega) (by omega) (by omega),
      full a0 ha0, full a1 ha1, full a2 ha2, full a3 ha3]
  · rw [e0, getBroadcastIPv4Address_dotted a0 a1 a2 a3 0 0 0 0 (by omega) (by omega)
      (by omega) (by omega) (by omega) (by omega) (by omega) (by omega),
      zero a0, zero a1, zero a2, zero a3, e255]

/-- Witness of C2 at the address 192.168.11.1. -/
theorem getBroadcastIPv4Address_full_and_zero_mask_witness :
    (192 ≤ 255 ∧ 168 ≤ 255 ∧ 11 ≤ 255 ∧ 1 ≤ 255)
      ∧ (getBroadcastIPv4Address (dotted 192 168 11 1) "255.255.255.255" = dotted 192 168 11 1
        ∧ getBroadcastIPv4Address (dotted 192 168 11 1) "0.0.0.0" = "255.255.255.255") :=
  ⟨by decide, getBroadcastIPv4Address_full_and_zero_mask 192 168 11 1 (by decide) (by decide)
    (by decide) (by decide)⟩

/-- C9: the result of `getBroadcastIPv4Address` is the highest address of the subnet. For
a valid address `a` and mask `m` the result is the text of octets `b` that lie in the
subnet of `a` (`bi AND mi = ai AND mi`), and every valid address `x` of that subnet has
`xi ≤ bi` in each octet, hence `x ≤ b` as 32-bit big-endian numbers. -/
theorem getBroadcastIPv4Address_highest_in_subnet (a0 a1 a2 a3 m0 m1 m2 m3 : Nat)
    (ha0 : a0 ≤ 255) (ha1 : a1 ≤ 255) (ha2 : a2 ≤ 255) (ha3 : a3 ≤ 255)
    (hm0 : m0 ≤ 255) (hm1 : m1 ≤ 255) (hm2 : m2 ≤ 255) (hm3 : m3 ≤ 255) :
    ∃ b0 b1 b2 b3 : Nat,
      getBroadcastIPv4Address (dotted a0 a1 a2 a3) (dotted m0 m1 m2 m3) = dotted b0 b1 b2 b3
      ∧ (b0 ≤ 255 ∧ b1 ≤ 255 ∧ b2 ≤ 255 ∧ b3 ≤ 255)
      ∧ (b0 &&& m0 = a0 &&& m0 ∧ b1 &&& m1 = a1 &&& m1
          ∧ b2 &&& m2 = a2 &&& m2 ∧ b3 &&& m3 = a3 &&& m3)
      ∧ ∀ x0 x1 x2 x3 : Nat, x0 ≤ 255 → x1 ≤ 255 → x2 ≤ 255 → x3 ≤ 255 →
          x0 &&& m0 = a0 &&& m0 → x1 &&& m1 = a1 &&& m1 →
          x2 &&& m2 = a2 &&& m2 → x3 &&& m3 = a3 &&& m3 →
          (x0 ≤ b0 ∧ x1 ≤ b1 ∧ x2 ≤ b2 ∧ x3 ≤ b3)
            ∧ ipv4Value x0 x1 x2 x3 ≤ ipv4Value b0 b1 b2 b3 := by
  refine ⟨(a0 &&& m0) ||| (255 - m0), (a1 &&& m1) ||| (255 - m1), (a2 &&& m2) ||| (255 - m2),
    (a3 &&& m3) ||| (255 - m3),
    getBroadcastIPv4Address_dotted a0 a1 a2 a3 m0 m1 m2 m3 (by omega) (by omega) (by omega)
      (by omega) (by omega) (by omega) (by omega) (by omega), ?_, ?_, ?_⟩
  · have l0 := broadcast_bits_lt a0 m0 (by omega)
    have l1 := broadcast_bits_lt a1 m1 (by omega)
    have l2 := broadcast_bits_lt a2 m2 (by omega)
    have l3 := broadcast_bits_lt a3 m3 (by omega)
    omega
  · exact ⟨broadcast_octet_and_mask a0 m0 (by omega), broadcast_octet_and_mask a1 m1 (by omega),
      broadcast_octet_and_mask a2 m2 (by omega), broadcast_octet_and_mask a3 m3 (by omega)⟩
  · intro x0 x1 x2 x3 hx0 hx1 hx2 hx3 e0 e1 e2 e3
    have l0 := le_broadcast_octet a0 m0 x0 (by omega) (by omega) e0
    have l1 := le_broadcast_octet a1 m1 x1 (by omega) (by omega) e1
    have l2 := le_broadcast_octet a2 m2 x2 (by omega) (by omega) e2
    have l3 := le_broadcast_octet a3 m3 x3 (by omega) (by omega) e3
    exact ⟨⟨l0, l1, l2, l3⟩, ipv4Value_mono _ _ _ _ _ _ _ _ l0 l1 l2 l3⟩

/-- Witness of C9 at the address 10.0.5.37 with the mask 255.255.0.0. -/
theorem getBroadcastIPv4Address_highest_in_subnet_witness :
    (10 ≤ 255 ∧ 0 ≤ 255 ∧ 5 ≤ 255 ∧ 37 ≤ 255 ∧ 255 ≤ 255 ∧ 255 ≤ 255 ∧ 0 ≤ 255 ∧ 0 ≤ 255)
      ∧ ∃ b0 b1 b2 b3 : Nat,
        getBroadcastIPv4Address (dotted 10 0 5 37) (dotted 255 255 0 0) = dotted b0 b1 b2 b3
        ∧ (b0 ≤ 255 ∧ b1 ≤ 255 ∧ b2 ≤ 255 ∧ b3 ≤ 255)
        ∧ (b0 &&& 255 = 10 &&& 255 ∧ b1 &&& 255 = 0 &&& 255
            ∧ b2 &&& 0 = 5 &&& 0 ∧ b3 &&& 0 = 37 &&& 0)
        ∧ ∀ x0 x1 x2 x3 : Nat, x0 ≤ 255 → x1 ≤ 255 → x2 ≤ 255 → x3 ≤ 255 →
            x0 &&& 255 = 10 &&& 255 → x1 &&& 255 = 0 &&& 255 →
            x2 &&& 0 = 5 &&& 0 → x3 &&& 0 = 37 &&& 0 →
            (x0 ≤ b0 ∧ x1 ≤ b1 ∧ x2 ≤ b2 ∧ x3 ≤ b3)
              ∧ ipv4Value x0 x1 x2 x3 ≤ ipv4Value b0 b1 b2 b3 :=
  ⟨by decide, getBroadcastIPv4Address_highest_in_subnet 10 0 5 37 255 255 0 0 (by decide)
    (by decide) (by decide) (by decide) (by decide) (by decide) (by decide) (by decide)⟩

/-! ## Properties of the POST handler -/

/-- C3: in the POST handler, with `n` qualifying interfaces and calls of `wol.wake` that
return, on `win32` exactly `n` calls `wol.wake(mac, { address: d })` are issued, one per
computed broadcast destination `d` in order; on every other platform exactly one call
`wol.wake(mac)` without destination is issued, whatever `n` is. The callback then runs
to its end. -/
theorem onPostEnd_send_calls (host : Host) (form : ParsedPostData)
    (targetMacAddresses statuses : List (Option String))
    (hmac : arrayOrSplit form.targetmacaddress = .ok targetMacAddresses)
    (hst : arrayOrSplit form.status = .ok statuses)
    (hwin : host.platform = "win32" →
      ∀ iface ∈ qualifyingInterfaces host.networkInterfaces,
        host.wakeThrows ⟨arrayGet targetMacAddresses (jsMinusOne (qsToNumber form.action)),
          some (getBroadcastIPv4Address iface.address iface.netmask)⟩ = false)
    (hother : host.platform ≠ "win32" →
      host.wakeThrows ⟨arrayGet targetMacAddresses (jsMinusOne (qsToNumber form.action)),
        none⟩ = false) :
    ∃ r, onPostEnd host form = .ok r
      ∧ (∃ statuses1, r.statuses = .ok statuses1)
      ∧ (host.platform = "win32" →
          r.sends.map Prod.fst =
              (qualifyingInterfaces host.networkInterfaces).map (fun iface =>
                (⟨arrayGet targetMacAddresses (jsMinusOne (qsToNumber form.action)),
                  some (getBroadcastIPv4Address iface.address iface.netmask)⟩ : WakeCall))
            ∧ r.sends.length = (qualifyingInterfaces host.networkInterfaces).length)
      ∧ (host.platform ≠ "win32" →
          r.sends.map Prod.fst =
            [⟨arrayGet targetMacAddresses (jsMinusOne (qsToNumber form.action)), none⟩]) := by
  refine ⟨_, onPostEnd_ok host form targetMacAddresses statuses hmac hst, ?_, ?_, ?_⟩
  · by_cases hp : host.platform = "win32"
    · rw [sendMagicPackets_win32 _ _ _ hp (by
        intro value hv
        rw [collectBroadcastIPv4Addresses_eq, List.mem_map] at hv
        obtain ⟨iface, hi, rfl⟩ := hv
        exact hwin hp iface hi)]
      exact ⟨_, rfl⟩
    · rw [sendMagicPackets_other _ _ _ hp (hother hp)]
      exact ⟨_, rfl⟩
  · intro hp
    rw [sendMagicPackets_win32 _ _ _ hp (by
      intro value hv
      rw [collectBroadcastIPv4Addresses_eq, List.mem_map] at hv
      obtain ⟨iface, hi, rfl⟩ := hv
      exact hwin hp iface hi)]
    simp [collectBroadcastIPv4Addresses_eq, List.map_map, Function.comp_def]
  · intro hp
    rw [sendMagicPackets_other _ _ _ hp (hother hp)]
    rfl

/-- Witness of C3 on the sample host as `win32`, row 2 of a two-row form. -/
theorem onPostEnd_send_calls_witness :
    (arrayOrSplit twoRowForm.targetmacaddress =
        .ok [some "AA:BB:CC:DD:EE:FF", some "11-22-33-44-55-66"]
      ∧ arrayOrSplit twoRowForm.status =
        .ok [some "2024/01/01 00:00:00 | AA:BB:CC:DD:EE:FF | Sent magic packet to 192.168.1.255",
          some ""]
      ∧ ((sampleHost "win32" .succeeded).platform = "win32" →
        ∀ iface ∈ qualifyingInterfaces (sampleHost "win32" .succeeded).networkInterfaces,
          (sampleHost "win32" .succeeded).wakeThrows
            ⟨arrayGet [some "AA:BB:CC:DD:EE:FF", some "11-22-33-44-55-66"]
                (jsMinusOne (qsToNumber twoRowForm.action)),
              some (getBroadcastIPv4Address iface.address iface.netmask)⟩ = false)
      ∧ ((sampleHost "win32" .succeeded).platform ≠ "win32" →
        (sampleHost "win32" .succeeded).wakeThrows
          ⟨arrayGet [some "AA:BB:CC:DD:EE:FF", some "11-22-33-44-55-66"]
            (jsMinusOne (qsToNumber twoRowForm.action)), none⟩ = false))
    ∧ ∃ r, onPostEnd (sampleHost "win32" .succeeded) twoRowForm = .ok r
      ∧ (∃ statuses1, r.statuses = .ok statuses1)
      ∧ ((sampleHost "win32" .succeeded).platform = "win32" →
          r.sends.map Prod.fst =
              (qualifyingInterfaces (sampleHost "win32" .succeeded).networkInterfaces).map
                (fun iface =>
                  (⟨arrayGet [some "AA:BB:CC:DD:EE:FF", some "11-22-33-44-55-66"]
                      (jsMinusOne (qsToNumber twoRowForm.action)),
                    some (getBroadcastIPv4Address iface.address iface.netmask)⟩ : WakeCall))
            ∧ r.sends.length =
              (qualifyingInterfaces (sampleHost "win32" .succeeded).networkInterfaces).length)
      ∧ ((sampleHost "win32" .succeeded).platform ≠ "win32" →
          r.sends.map Prod.fst =
            [⟨arrayGet [some "AA:BB:CC:DD:EE:FF", some "11-22-33-44-55-66"]
              (jsMinusOne (qsToNumber twoRowForm.action)), none⟩]) :=
  ⟨⟨rfl, rfl, by decide, by decide⟩,
    onPostEnd_send_calls (sampleHost "win32" .succeeded) twoRowForm _ _ rfl rfl
      (by decide) (by decide)⟩

/-- C4: the destination list built by the POST handler is the sequence of
`getBroadcastIPv4Address(entry.address, entry.netmask)` over the entries of
`os.networkInterfaces()` that are IPv4 and not internal, in enumeration order. -/
theorem onPostEnd_destinations (host : Host) (form : ParsedPostData)
    (targetMacAddresses statuses : List (Option String))
    (hmac : arrayOrSplit form.targetmacaddress = .ok targetMacAddresses)
    (hst : arrayOrSplit form.status = .ok statuses) :
    ∃ r, onPostEnd host form = .ok r
      ∧ r.broadcastIPv4Addresses =
        (((host.networkInterfaces.map Prod.snd).flatten.filter
            (fun entry => decide (entry.family = "IPv4" ∧ entry.internal = false))).map
          (fun entry => getBroadcastIPv4Address entry.address entry.netmask)) := by
  refine ⟨_, onPostEnd_ok host form targetMacAddresses statuses hmac hst, ?_⟩
  simp only [collectBroadcastIPv4Addresses_eq, qualifyingInterfaces]
  congr 2
  funext entry
  simp only [and_comm]

/-- Witness of C4 on the sample host, whose loopback and IPv6 entries give no
destination. -/
theorem onPostEnd_destinations_witness :
    (arrayOrSplit twoRowForm.targetmacaddress =
        .ok [some "AA:BB:CC:DD:EE:FF", some "11-22-33-44-55-66"]
      ∧ arrayOrSplit twoRowForm.status =
        .ok [some "2024/01/01 00:00:00 | AA:BB:CC:DD:EE:FF | Sent magic packet to 192.168.1.255",
          some ""])
    ∧ ∃ r, onPostEnd (sampleHost "linux" .succeeded) twoRowForm = .ok r
      ∧ r.broadcastIPv4Addresses =
        ((((sampleHost "linux" .succeeded).networkInterfaces.map Prod.snd).flatten.filter
            (fun entry => decide (entry.family = "IPv4" ∧ entry.internal = false))).map
          (fun entry => getBroadcastIPv4Address entry.address entry.netmask)) :=
  ⟨⟨rfl, rfl⟩, onPostEnd_destinations (sampleHost "linux" .succeeded) twoRowForm _ _ rfl rfl⟩

/-- C5: on a host with no IPv4 interface other than internal ones, the handler does not
throw and its destination list is empty, on both platform branches. On `win32` no call of
`wol.wake` is issued, so nothing can throw; elsewhere the single call without destination
is issued, and the handler runs to its end when that call returns. The status text then
ends with the empty destination list. -/
theorem onPostEnd_no_interfaces (host : Host) (form : ParsedPostData)
    (targetMacAddresses statuses : List (Option String))
    (hmac : arrayOrSplit form.targetmacaddress = .ok targetMacAddresses)
    (hst : arrayOrSplit form.status = .ok statuses)
    (hnone : ∀ entry ∈ host.networkInterfaces, ∀ iface ∈ entry.2,
      ¬ (iface.internal = false ∧ iface.family = "IPv4"))
    (hother : host.platform ≠ "win32" →
      host.wakeThrows ⟨arrayGet targetMacAddresses (jsMinusOne (qsToNumber form.action)),
        none⟩ = false) :
    ∃ r, onPostEnd host form = .ok r
      ∧ r.broadcastIPv4Addresses = []
      ∧ r.statuses = .ok (arraySet statuses (jsMinusOne (qsToNumber form.action))
          (getCurrentDateString host.now ++ " | "
            ++ templateString (arrayGet targetMacAddresses (jsMinusOne (qsToNumber form.action)))
            ++ " | Sent magic packet to "))
      ∧ (host.platform = "win32" → r.sends = [])
      ∧ (host.platform ≠ "win32" →
          r.sends.map Prod.fst =
            [⟨arrayGet targetMacAddresses (jsMinusOne (qsToNumber form.action)), none⟩]) := by
  have hq : qualifyingInterfaces host.networkInterfaces = [] := by
    unfold qualifyingInterfaces
    rw [List.filter_eq_nil_iff]
    intro iface hmem
    simp only [List.mem_flatten, List.mem_map] at hmem
    obtain ⟨l, ⟨entry, hentry, rfl⟩, hl⟩ := hmem
    simpa using hnone entry hentry iface hl
  have hc : collectBroadcastIPv4Addresses host.networkInterfaces = [] := by
    rw [collectBroadcastIPv4Addresses_eq, hq]
    rfl
  refine ⟨_, onPostEnd_ok host form targetMacAddresses statuses hmac hst, hc, ?_, ?_, ?_⟩
  · rw [hc]
    by_cases hp : host.platform = "win32"
    · rw [sendMagicPackets_win32_nil _ _ hp]
      simp [jsJoin]
    · rw [sendMagicPackets_other _ _ _ hp (hother hp)]
      simp [jsJoin]
  · intro hp
    rw [hc, sendMagicPackets_win32_nil _ _ hp]
  · intro hp
    rw [sendMagicPackets_other _ _ _ hp (hother hp)]
    rfl

/-- Witness of C5 on a `linux` host that only has the loopback interface: the single
call of `wol.wake` is issued and returns. -/
theorem onPostEnd_no_interfaces_witness :
    (arrayOrSplit twoRowForm.targetmacaddress =
        .ok [some "AA:BB:CC:DD:EE:FF", some "11-22-33-44-55-66"]
      ∧ arrayOrSplit twoRowForm.status =
        .ok [some "2024/01/01 00:00:00 | AA:BB:CC:DD:EE:FF | Sent magic packet to 192.168.1.255",
          some ""]
      ∧ (∀ entry ∈ (loopbackOnlyHost "linux").networkInterfaces, ∀ iface ∈ entry.2,
          ¬ (iface.internal = false ∧ iface.family = "IPv4"))
      ∧ ((loopbackOnlyHost "linux").platform ≠ "win32" →
          (loopbackOnlyHost "linux").wakeThrows
            ⟨arrayGet [some "AA:BB:CC:DD:EE:FF", some "11-22-33-44-55-66"]
              (jsMinusOne (qsToNumber twoRowForm.action)), none⟩ = false))
    ∧ ∃ r, onPostEnd (loopbackOnlyHost "linux") twoRowForm = .ok r
      ∧ r.broadcastIPv4Addresses = []
      ∧ r.statuses = .ok (arraySet
          [some "2024/01/01 00:00:00 | AA:BB:CC:DD:EE:FF | Sent magic packet to 192.168.1.255",
            some ""]
          (jsMinusOne (qsToNumber twoRowForm.action))
          (getCurrentDateString (loopbackOnlyHost "linux").now ++ " | "
            ++ templateString (arrayGet [some "AA:BB:CC:DD:EE:FF", some "11-22-33-44-55-66"]
                (jsMinusOne (qsToNumber twoRowForm.action)))
            ++ " | Sent magic packet to "))
      ∧ ((loopbackOnlyHost "linux").platform = "win32" → r.sends = [])
      ∧ ((loopbackOnlyHost "linux").platform ≠ "win32" →
          r.sends.map Prod.fst =
            [⟨arrayGet [some "AA:BB:CC:DD:EE:FF", some "11-22-33-44-55-66"]
              (jsMinusOne (qsToNumber twoRowForm.action)), none⟩]) :=
  ⟨⟨rfl, rfl, by decide, by decide⟩,
    onPostEnd_no_interfaces (loopbackOnlyHost "linux") twoRowForm _ _ rfl rfl
      (by decide) (by decide)⟩

/-- Counterexample to C6 as stated: on a platform other than `win32` the single call of
`wol.wake` carries no destination, yet the status text lists the two computed broadcast
addresses, not a default marker. -/
theorem status_lists_computed_addresses_on_default_platform :
    ∃ r, onPostEnd (sampleHost "linux" .succeeded) twoRowForm = .ok r
      ∧ r.sends.map Prod.fst = [⟨some "11-22-33-44-55-66", none⟩]
      ∧ r.broadcastIPv4Addresses = ["192.168.1.255", "10.0.255.255"]
      ∧ r.statuses = .ok
        [some "2024/01/01 00:00:00 | AA:BB:CC:DD:EE:FF | Sent magic packet to 192.168.1.255",
         some ("2024/01/05 07:08:09 | 11-22-33-44-55-66 | Sent magic packet to "
           ++ "192.168.1.255,10.0.255.255")] :=
  ⟨_, rfl, by decide, by decide, by decide⟩

/-- C6, amended: on every platform the list interpolated into the status text is the list
of computed broadcast addresses of the qualifying interfaces, joined by commas. On `win32`
these are the destinations passed to `wol.wake`, in order; on the other platforms the
single call of `wol.wake` carries no destination and the status text still lists the
computed addresses. The status text is written when the calls of `wol.wake` return. -/
theorem onPostEnd_status_destinations (host : Host) (form : ParsedPostData)
    (targetMacAddresses statuses : List (Option String))
    (hmac : arrayOrSplit form.targetmacaddress = .ok targetMacAddresses)
    (hst : arrayOrSplit form.status = .ok statuses)
    (hwin : host.platform = "win32" →
      ∀ iface ∈ qualifyingInterfaces host.networkInterfaces,
        host.wakeThrows ⟨arrayGet targetMacAddresses (jsMinusOne (qsToNumber form.action)),
          some (getBroadcastIPv4Address iface.address iface.netmask)⟩ = false)
    (hother : host.platform ≠ "win32" →
      host.wakeThrows ⟨arrayGet targetMacAddresses (jsMinusOne (qsToNumber form.action)),
        none⟩ = false) :
    ∃ r, onPostEnd host form = .ok r
      ∧ r.statuses = .ok
        (arraySet statuses (jsMinusOne (qsToNumber form.action))
          (getCurrentDateString host.now ++ " | "
            ++ templateString (arrayGet targetMacAddresses (jsMinusOne (qsToNumber form.action)))
            ++ " | Sent magic packet to "
            ++ jsJoin "," ((qualifyingInterfaces host.networkInterfaces).map
                (fun iface => getBroadcastIPv4Address iface.address iface.netmask))))
      ∧ (host.platform = "win32" →
          r.sends.map (fun send => send.1.address) =
            (qualifyingInterfaces host.networkInterfaces).map
              (fun iface => some (getBroadcastIPv4Address iface.address iface.netmask)))
      ∧ (host.platform ≠ "win32" → r.sends.map (fun send => send.1.address) = [none]) := by
  have hw : host.platform = "win32" →
      ∀ value ∈ collectBroadcastIPv4Addresses host.networkInterfaces,
        host.wakeThrows ⟨arrayGet targetMacAddresses (jsMinusOne (qsToNumber form.action)),
          some value⟩ = false := by
    intro hp value hv
    rw [collectBroadcastIPv4Addresses_eq, List.mem_map] at hv
    obtain ⟨iface, hi, rfl⟩ := hv
    exact hwin hp iface hi
  refine ⟨_, onPostEnd_ok host form targetMacAddresses statuses hmac hst, ?_, ?_, ?_⟩
  · by_cases hp : host.platform = "win32"
    · rw [sendMagicPackets_win32 _ _ _ hp (hw hp)]
      simp only [collectBroadcastIPv4Addresses_eq]
    · rw [sendMagicPackets_other _ _ _ hp (hother hp)]
      simp only [collectBroadcastIPv4Addresses_eq]
  · intro hp
    rw [sendMagicPackets_win32 _ _ _ hp (hw hp)]
    simp [collectBroadcastIPv4Addresses_eq, List.map_map, Function.comp_def]
  · intro hp
    rw [sendMagicPackets_other _ _ _ hp (hother hp)]
    rfl

/-- Witness of amended C6 on the sample host as `linux`. -/
theorem onPostEnd_status_destinations_witness :
    (arrayOrSplit twoRowForm.targetmacaddress =
        .ok [some "AA:BB:CC:DD:EE:FF", some "11-22-33-44-55-66"]
      ∧ arrayOrSplit twoRowForm.status =
        .ok [some "2024/01/01 00:00:00 | AA:BB:CC:DD:EE:FF | Sent magic packet to 192.168.1.255",
          some ""]
      ∧ ((sampleHost "linux" .failed).platform = "win32" →
        ∀ iface ∈ qualifyingInterfaces (sampleHost "linux" .failed).networkInterfaces,
          (sampleHost "linux" .failed).wakeThrows
            ⟨arrayGet [some "AA:BB:CC:DD:EE:FF", some "11-22-33-44-55-66"]
                (jsMinusOne (qsToNumber twoRowForm.action)),
              some (getBroadcastIPv4Address iface.address iface.netmask)⟩ = false)
      ∧ ((sampleHost "linux" .failed).platform ≠ "win32" →
        (sampleHost "linux" .failed).wakeThrows
          ⟨arrayGet [some "AA:BB:CC:DD:EE:FF", some "11-22-33-44-55-66"]
            (jsMinusOne (qsToNumber twoRowForm.action)), none⟩ = false))
    ∧ ∃ r, onPostEnd (sampleHost "linux" .failed) twoRowForm = .ok r
      ∧ r.statuses = .ok
        (arraySet
          [some "2024/01/01 00:00:00 | AA:BB:CC:DD:EE:FF | Sent magic packet to 192.168.1.255",
            some ""]
          (jsMinusOne (qsToNumber twoRowForm.action))
          (getCurrentDateString (sampleHost "linux" .failed).now ++ " | "
            ++ templateString (arrayGet [some "AA:BB:CC:DD:EE:FF", some "11-22-33-44-55-66"]
                (jsMinusOne (qsToNumber twoRowForm.action)))
            ++ " | Sent magic packet to "
            ++ jsJoin "," ((qualifyingInterfaces (sampleHost "linux" .failed).networkInterfaces).map
                (fun iface => getBroadcastIPv4Address iface.address iface.netmask))))
      ∧ ((sampleHost "linux" .failed).platform = "win32" →
          r.sends.map (fun send => send.1.address) =
            (qualifyingInterfaces (sampleHost "linux" .failed).networkInterfaces).map
              (fun iface => some (getBroadcastIPv4Address iface.address iface.netmask)))
      ∧ ((sampleHost "linux" .failed).platform ≠ "win32" →
          r.sends.map (fun send => send.1.address) = [none]) :=
  ⟨⟨rfl, rfl, by decide, by decide⟩,
    onPostEnd_status_destinations (sampleHost "linux" .failed) twoRowForm _ _ rfl rfl
      (by decide) (by decide)⟩

/-- Counterexample to C7 as stated: with the same form, date, interfaces and platform, a
dispatch whose two sends both fail locally and a dispatch whose sends both succeed issue
the same calls and hand the same status list to the page. -/
theorem failed_sends_leave_status_unchanged :
    ∃ r1 r2, onPostEnd (sampleHost "win32" .failed) twoRowForm = .ok r1
      ∧ onPostEnd (sampleHost "win32" .succeeded) twoRowForm = .ok r2
      ∧ r1.sends.map Prod.snd = [.failed, .failed]
      ∧ r2.sends.map Prod.snd = [.succeeded, .succeeded]
      ∧ r1.sends.map Prod.fst = r2.sends.map Prod.fst
      ∧ r1.statuses = r2.statuses
      ∧ r1.statuses = .ok
        [some "2024/01/01 00:00:00 | AA:BB:CC:DD:EE:FF | Sent magic packet to 192.168.1.255",
         some ("2024/01/05 07:08:09 | 11-22-33-44-55-66 | Sent magic packet to "
           ++ "192.168.1.255,10.0.255.255")] :=
  ⟨_, _, rfl, rfl, by decide, by decide, by decide, by decide, by decide⟩

/-- C7, amended: the status list handed to the page does not depend on the local outcome
of the sends. Two dispatches on hosts that differ only in the outcomes of `wol.wake`
raise alike or produce the same status list, so a local send failure is not reflected in
the status text. -/
theorem onPostEnd_status_independent_of_send_outcome (host : Host) (form : ParsedPostData)
    (wake1 wake2 : WakeCall → SendOutcome) :
    (onPostEnd { host with wake := wake1 } form).map PostOutcome.statuses =
      (onPostEnd { host with wake := wake2 } form).map PostOutcome.statuses := by
  unfold onPostEnd
  cases arrayOrSplit form.targetmacaddress with
  | error e => rfl
  | ok targetMacAddresses =>
    cases arrayOrSplit form.status with
    | error e => rfl
    | ok statuses =>
      simp only
      have h := sendMagicPackets_thrown_congr host wake1 wake2
        (arrayGet targetMacAddresses (jsMinusOne (qsToNumber form.action)))
        (collectBroadcastIPv4Addresses host.networkInterfaces)
      simp only at h
      rw [h]
      cases (sendMagicPackets { host with wake := wake2 }
        (arrayGet targetMacAddresses (jsMinusOne (qsToNumber form.action)))
        (collectBroadcastIPv4Addresses host.networkInterfaces)).2 <;> rfl

/-- C10, evaluated at a one-row form whose submitted status text holds a comma: the single
submitted status is split at the comma, so the list handed to `createHtmlData` has two
entries, the new status text and the tail `10.0.255.255` of the old one, where replacing
entry 0 of the one-entry submitted list gives a single entry. -/
theorem onPostEnd_one_row_status_split :
    ∃ r, onPostEnd (sampleHost "win32" .succeeded) oneRowForm = .ok r
      ∧ r.statuses = .ok
        [some ("2024/01/05 07:08:09 | AA:BB:CC:DD:EE:FF | Sent magic packet to "
           ++ "192.168.1.255,10.0.255.255"),
         some "10.0.255.255"]
      ∧ r.statuses ≠ .ok
        [some ("2024/01/05 07:08:09 | AA:BB:CC:DD:EE:FF | Sent magic packet to "
           ++ "192.168.1.255,10.0.255.255")] :=
  ⟨_, rfl, by decide, by decide⟩

/-- A call of `wol.wake` that throws ends the handler: on a `linux` host whose `wol.wake`
rejects the MAC address `AA:BB:CC:DD:EE`, no call returns and no status is written; on
`win32` with two interfaces and a row number past the table, the MAC address is
`undefined`, the first call throws and the second is never issued. -/
theorem onPostEnd_wake_throws :
    (∃ r, onPostEnd (loopbackOnlyHost "linux") shortMacForm = .ok r
      ∧ r.sends = [] ∧ r.statuses = .error .wakeError)
    ∧ (∃ r, onPostEnd (sampleHost "win32" .succeeded)
          { twoRowForm with action := .str "5" } = .ok r
      ∧ r.broadcastIPv4Addresses = ["192.168.1.255", "10.0.255.255"]
      ∧ r.sends = [] ∧ r.statuses = .error .wakeError) :=
  ⟨⟨_, rfl, by decide, by decide⟩, ⟨_, rfl, by decide, by decide, by decide⟩⟩

/-! ## Properties of the magic packet -/

theorem replicate_flatten_getElem (k : Nat) (mac : List Nat) (i j : Nat) (hi : i < k)
    (hj : j < mac.length) :
    (List.replicate k mac).flatten[mac.length * i + j]? = mac[j]? := by
  induction k generalizing i with
  | zero => omega
  | succ k ih =>
    rw [List.replicate_succ, List.flatten_cons]
    cases i with
    | zero =>
      simp only [Nat.mul_zero, Nat.zero_add]
      rw [List.getElem?_append_left hj]
    | succ i =>
      rw [List.getElem?_append_right (by rw [Nat.mul_succ]; omega)]
      have e : mac.length * (i + 1) + j - mac.length = mac.length * i + j := by
        rw [Nat.mul_succ]; omega
      rw [e]
      exact ih i (by omega)

/-- C8: for every MAC address of 6 octets in `[0, 255]` the packet is built, has exactly
102 bytes, its first 6 bytes are `0xFF`, and bytes 6 to 101 are 16 consecutive copies of
the 6 octets of the address. -/
theorem buildPacket_layout (mac : List Nat) (hlen : mac.length = 6)
    (hoct : ∀ o ∈ mac, o ≤ 255) :
    ∃ packet, buildPacket mac = .ok packet
      ∧ packet.length = 102
      ∧ (∀ i, i < 6 → packet[i]? = some 0xFF)
      ∧ (∀ k j, k < 16 → j < 6 → packet[6 + 6 * k + j]? = mac[j]?)
      ∧ packet.drop 6 = (List.replicate 16 mac).flatten := by
  refine ⟨List.replicate 6 0xFF ++ (List.replicate 16 mac).flatten, ?_, ?_, ?_, ?_, ?_⟩
  · unfold buildPacket
    rw [if_pos ⟨hlen, hoct⟩]
  · simp [hlen]
  · intro i hi
    rw [List.getElem?_append_left (by simpa using hi), List.getElem?_replicate, if_pos hi]
  · intro k j hk hj
    rw [List.getElem?_append_right (by simp; omega)]
    have e : 6 + 6 * k + j - (List.replicate 6 255).length = mac.length * k + j := by
      simp [hlen]; omega
    rw [e]
    exact replicate_flatten_getElem 16 mac k j hk (by omega)
  · simp

/-- Witness of C8 at the address AA:BB:CC:DD:EE:FF. -/
theorem buildPacket_layout_witness :
    ([0xAA, 0xBB, 0xCC, 0xDD, 0xEE, 0xFF].length = 6
      ∧ ∀ o ∈ [0xAA, 0xBB, 0xCC, 0xDD, 0xEE, 0xFF], o ≤ 255)
    ∧ ∃ packet, buildPacket [0xAA, 0xBB, 0xCC, 0xDD, 0xEE, 0xFF] = .ok packet
      ∧ packet.length = 102
      ∧ (∀ i, i < 6 → packet[i]? = some 0xFF)
      ∧ (∀ k j, k < 16 → j < 6 →
          packet[6 + 6 * k + j]? = [0xAA, 0xBB, 0xCC, 0xDD, 0xEE, 0xFF][j]?)
      ∧ packet.drop 6 = (List.replicate 16 [0xAA, 0xBB, 0xCC, 0xDD, 0xEE, 0xFF]).flatten :=
  ⟨⟨rfl, by decide⟩, buildPacket_layout [0xAA, 0xBB, 0xCC, 0xDD, 0xEE, 0xFF] rfl (by decide)⟩

end WOLviaWebpage
